import Mathlib

/-!
Verification of the response/encoding module of the `rexpath` repository
(`src/response.py`), under Python 3 semantics (`six.PY2 = False`,
`six.text_type = str`).

The development shallowly embeds the code: raw bodies are `List Nat`
(byte values), decoded text is Lean `String`, the mutable memoization
fields of `TextResponse` are threaded explicitly as state, and fallible
Python operations return `Except`.

External collaborators of the module that are not part of the repository
source tree (the `w3lib.encoding` helpers, `urllib.parse.urljoin`, the
`Headers` multimap and the memoization decorator from the package's own
`utils`/`headers` modules) are modelled from the specification's
description of them; each such definition carries a doc comment saying
so.  Python's byte/text codecs (`ascii`, `utf-8`, `cp1252`, and the
UTF-16/32 family used only for byte-order-mark handling) are modelled
directly; lossy decoding replaces each undecodable byte with U+FFFD
(`errors='replace'` semantics, with per-byte replacement granularity).
-/

namespace Rexpath

/-- Raw byte strings: each element is a byte value `< 256`. -/
abbrev Bytes := List Nat

/-- The Unicode replacement character U+FFFD used by lossy decoding. -/
def replChar : Char := Char.ofNat 0xFFFD

/-! ### ascii codec -/

/-- Strict `ascii` decode: succeeds iff every byte is `< 128`. -/
def asciiDecode : Bytes → Option (List Char)
  | [] => some []
  | b :: rest =>
    if b < 128 then (asciiDecode rest).map (fun l => Char.ofNat b :: l) else none

/-- Lossy `ascii` decode: bytes `≥ 128` become U+FFFD. -/
def asciiDecodeReplace : Bytes → List Char
  | [] => []
  | b :: rest => (if b < 128 then Char.ofNat b else replChar) :: asciiDecodeReplace rest

/-- Strict `ascii` encode of a single character. -/
def asciiEncodeChar (c : Char) : Option Nat :=
  if c.toNat < 128 then some c.toNat else none

/-! ### cp1252 codec -/

/-- The cp1252 high range 0x80–0x9F (from the Unicode mapping table);
`none` marks the five bytes that are undefined in cp1252. -/
def cp1252Hi (b : Nat) : Option Nat :=
  match b with
  | 0x80 => some 0x20AC
  | 0x82 => some 0x201A
  | 0x83 => some 0x0192
  | 0x84 => some 0x201E
  | 0x85 => some 0x2026
  | 0x86 => some 0x2020
  | 0x87 => some 0x2021
  | 0x88 => some 0x02C6
  | 0x89 => some 0x2030
  | 0x8A => some 0x0160
  | 0x8B => some 0x2039
  | 0x8C => some 0x0152
  | 0x8E => some 0x017D
  | 0x91 => some 0x2018
  | 0x92 => some 0x2019
  | 0x93 => some 0x201C
  | 0x94 => some 0x201D
  | 0x95 => some 0x2022
  | 0x96 => some 0x2013
  | 0x97 => some 0x2014
  | 0x98 => some 0x02DC
  | 0x99 => some 0x2122
  | 0x9A => some 0x0161
  | 0x9B => some 0x203A
  | 0x9C => some 0x0153
  | 0x9E => some 0x017E
  | 0x9F => some 0x0178
  | _ => none

/-- cp1252 decode of one byte to a code point. -/
def cp1252DecodeByte (b : Nat) : Option Nat :=
  if b < 0x80 then some b
  else if b < 0xA0 then cp1252Hi b
  else if b < 0x100 then some b
  else none

/-- Strict cp1252 decode: fails on the five undefined bytes. -/
def cp1252Decode : Bytes → Option (List Char)
  | [] => some []
  | b :: rest =>
    match cp1252DecodeByte b with
    | some n => (cp1252Decode rest).map (fun l => Char.ofNat n :: l)
    | none => none

/-- Lossy cp1252 decode. -/
def cp1252DecodeReplace : Bytes → List Char
  | [] => []
  | b :: rest =>
    (match cp1252DecodeByte b with
     | some n => Char.ofNat n
     | none => replChar) :: cp1252DecodeReplace rest

/-- Strict cp1252 encode of a single character (inverse table lookup). -/
def cp1252EncodeChar (c : Char) : Option Nat :=
  if c.toNat < 0x80 then some c.toNat
  else if 0xA0 ≤ c.toNat ∧ c.toNat < 0x100 then some c.toNat
  else ((List.range 32).find? (fun i => cp1252Hi (0x80 + i) == some c.toNat)).map
    (fun i => 0x80 + i)

/-! ### utf-8 codec -/

/-- UTF-8 encoding of one code point (assumed to be a valid scalar value). -/
def utf8EncodeChar (n : Nat) : List Nat :=
  if n < 0x80 then [n]
  else if n < 0x800 then [0xC0 + n / 64, 0x80 + n % 64]
  else if n < 0x10000 then [0xE0 + n / 4096, 0x80 + n / 64 % 64, 0x80 + n % 64]
  else [0xF0 + n / 262144, 0x80 + n / 4096 % 64, 0x80 + n / 64 % 64, 0x80 + n % 64]

/-- Is `b` a UTF-8 continuation byte? -/
def isCont (b : Nat) : Bool := 0x80 ≤ b && b < 0xC0

/-- Constraint on the second byte of a three-byte UTF-8 sequence with lead
byte `b0` (rules out overlong encodings and surrogates, as Python's strict
utf-8 decoder does). -/
def cont3ok (b0 b1 : Nat) : Bool :=
  if b0 == 0xE0 then 0xA0 ≤ b1 && b1 < 0xC0
  else if b0 == 0xED then 0x80 ≤ b1 && b1 < 0xA0
  else isCont b1

/-- Constraint on the second byte of a four-byte UTF-8 sequence with lead
byte `b0` (rules out overlong encodings and code points above U+10FFFF). -/
def cont4ok (b0 b1 : Nat) : Bool :=
  if b0 == 0xF0 then 0x90 ≤ b1 && b1 < 0xC0
  else if b0 == 0xF4 then 0x80 ≤ b1 && b1 < 0x90
  else isCont b1

/-- Strict UTF-8 decode to a list of code points (model of Python's
`bytes.decode('utf-8')` without error handler). -/
def utf8DecodeCore : Bytes → Option (List Nat)
  | [] => some []
  | b :: rest =>
    if b < 0x80 then (utf8DecodeCore rest).map (fun l => b :: l)
    else if b < 0xC2 then none
    else if b < 0xE0 then
      match rest with
      | b1 :: rest2 =>
        if isCont b1 then
          (utf8DecodeCore rest2).map (fun l => ((b - 0xC0) * 64 + (b1 - 0x80)) :: l)
        else none
      | [] => none
    else if b < 0xF0 then
      match rest with
      | b1 :: b2 :: rest3 =>
        if cont3ok b b1 && isCont b2 then
          (utf8DecodeCore rest3).map
            (fun l => ((b - 0xE0) * 4096 + (b1 - 0x80) * 64 + (b2 - 0x80)) :: l)
        else none
      | _ => none
    else if b < 0xF5 then
      match rest with
      | b1 :: b2 :: b3 :: rest4 =>
        if cont4ok b b1 && isCont b2 && isCont b3 then
          (utf8DecodeCore rest4).map
            (fun l => ((b - 0xF0) * 262144 + (b1 - 0x80) * 4096 + (b2 - 0x80) * 64 + (b3 - 0x80)) :: l)
        else none
      | _ => none
    else none

/-- One initial-mode step of the lossy UTF-8 decoder on lead byte `b`:
either an immediate output character (an ASCII character, or U+FFFD for a
byte that cannot start a sequence) or the pending state of a multi-byte
sequence — accumulated value, number of continuation bytes still expected,
and the admissible range of the next byte (which encodes the overlong,
surrogate and out-of-range restrictions of Python's utf-8 codec). -/
def utf8Step (b : Nat) : Option Char × Option (Nat × Nat × Nat × Nat) :=
  if b < 0x80 then (some (Char.ofNat b), none)
  else if b < 0xC2 then (some replChar, none)
  else if b < 0xE0 then (none, some (b - 0xC0, 1, 0x80, 0xC0))
  else if b < 0xF0 then
    (none, some (b - 0xE0, 2, if b == 0xE0 then 0xA0 else 0x80,
      if b == 0xED then 0xA0 else 0xC0))
  else if b < 0xF5 then
    (none, some (b - 0xF0, 3, if b == 0xF0 then 0x90 else 0x80,
      if b == 0xF4 then 0x90 else 0xC0))
  else (some replChar, none)

/-- Lossy UTF-8 decode, threading the pending multi-byte state: a malformed
or truncated sequence contributes one U+FFFD for its maximal subpart and
decoding resumes at the offending byte. -/
def utf8Aux : Option (Nat × Nat × Nat × Nat) → Bytes → List Char
  | none, [] => []
  | some _, [] => [replChar]
  | none, b :: rest =>
    match utf8Step b with
    | (some c, _) => c :: utf8Aux none rest
    | (none, p) => utf8Aux p rest
  | some (acc, need, lo, hi), b :: rest =>
    if lo ≤ b ∧ b < hi then
      if need = 1 then Char.ofNat (acc * 64 + (b - 0x80)) :: utf8Aux none rest
      else utf8Aux (some (acc * 64 + (b - 0x80), need - 1, 0x80, 0xC0)) rest
    else
      replChar ::
        (match utf8Step b with
         | (some c, _) => c :: utf8Aux none rest
         | (none, p) => utf8Aux p rest)

/-- Lossy UTF-8 decode of a byte string. -/
def utf8DecodeReplace (bs : Bytes) : List Char :=
  utf8Aux none bs

/-! ### utf-16 / utf-32 codecs (used only for byte-order-mark handling) -/

/-- Lossy UTF-16 decode, threading a pending high surrogate (`be = true`
for big-endian byte order); unpaired surrogates and odd tails become
U+FFFD. -/
def utf16Aux (be : Bool) : Option Nat → Bytes → List Char
  | none, [] => []
  | some _, [] => [replChar]
  | none, [_] => [replChar]
  | some _, [_] => [replChar, replChar]
  | none, a :: b :: rest =>
    let u := if be then a * 256 + b else b * 256 + a
    if u < 0xD800 ∨ 0xE000 ≤ u then Char.ofNat u :: utf16Aux be none rest
    else if u < 0xDC00 then utf16Aux be (some u) rest
    else replChar :: utf16Aux be none rest
  | some hi, a :: b :: rest =>
    let u := if be then a * 256 + b else b * 256 + a
    if 0xDC00 ≤ u ∧ u < 0xE000 then
      Char.ofNat (0x10000 + (hi - 0xD800) * 1024 + (u - 0xDC00)) :: utf16Aux be none rest
    else if u < 0xD800 ∨ 0xE000 ≤ u then replChar :: Char.ofNat u :: utf16Aux be none rest
    else if u < 0xDC00 then replChar :: utf16Aux be (some u) rest
    else replChar :: replChar :: utf16Aux be none rest

/-- Lossy UTF-16 decode of a byte string. -/
def utf16DecodeReplace (be : Bool) (bs : Bytes) : List Char :=
  utf16Aux be none bs

/-- Lossy UTF-32 decode; invalid scalar values and short tails become U+FFFD. -/
def utf32DecodeReplace (be : Bool) : Bytes → List Char
  | a :: b :: c :: d :: rest =>
    let u := if be then ((a * 256 + b) * 256 + c) * 256 + d
             else ((d * 256 + c) * 256 + b) * 256 + a
    (if u < 0xD800 || (0xE000 ≤ u && u < 0x110000) then Char.ofNat u else replChar)
      :: utf32DecodeReplace be rest
  | [] => []
  | _ => [replChar]

/-! ### models of the external `w3lib.encoding` helpers -/

/-- Modelled from the spec: `w3lib.encoding.read_bom` — byte-order-mark
sniffing used by the encoding-inference cascade (spec §4.3.1); returns the
encoding named by the BOM and the BOM length, longest BOMs first. -/
def read_bom (b : Bytes) : Option (String × Nat) :=
  match b with
  | 0xFF :: 0xFE :: 0x00 :: 0x00 :: _ => some ("utf-32-le", 4)
  | 0x00 :: 0x00 :: 0xFE :: 0xFF :: _ => some ("utf-32-be", 4)
  | 0xFF :: 0xFE :: _ => some ("utf-16-le", 2)
  | 0xFE :: 0xFF :: _ => some ("utf-16-be", 2)
  | 0xEF :: 0xBB :: 0xBF :: _ => some ("utf-8-sig", 3)
  | _ => none

/-- Character normalization for encoding names: lowercase, underscores to
hyphens, spaces removed. -/
def normalizeEncName (s : String) : String :=
  String.mk (s.toList.filterMap (fun c =>
    if c == ' ' then none
    else some (if c == '_' then '-' else c.toLower)))

/-- Modelled from the spec: `w3lib.encoding.resolve_encoding` — maps an
encoding alias to a canonical name via a standard canonicalization table
(spec §4.2.2, §9); unknown names resolve to `none`.  Per the WHATWG table
used by the library, the latin-1 family maps to cp1252. -/
def resolve_encoding (s : String) : Option String :=
  match normalizeEncName s with
  | "ascii" | "us-ascii" | "646" => some "ascii"
  | "utf-8" | "utf8" | "u8" => some "utf-8"
  | "cp1252" | "windows-1252" | "1252" => some "cp1252"
  | "latin-1" | "latin1" | "iso-8859-1" | "iso8859-1" | "l1" | "8859" => some "cp1252"
  | "utf-16" | "utf16" => some "utf-16"
  | "utf-16-le" | "utf16le" => some "utf-16-le"
  | "utf-16-be" | "utf16be" => some "utf-16-be"
  | "utf-32" | "utf32" => some "utf-32"
  | "utf-32-le" | "utf32le" => some "utf-32-le"
  | "utf-32-be" | "utf32be" => some "utf-32-be"
  | "utf-8-sig" => some "utf-8-sig"
  | _ => none

/-- Is `c` a character of a charset-name token (`[\w.-]`)? -/
def isTokChar (c : Char) : Bool :=
  c.isAlphanum || c == '-' || c == '_' || c == '.'

/-- The charset token following `charset=`: an optional single/double quote
is skipped, then the longest run of token characters is taken. -/
def charsetTokenOf (l : List Char) : String :=
  let l2 := match l with
    | c :: r => if c == '"' || c == Char.ofNat 39 then r else c :: r
    | [] => []
  String.mk (l2.takeWhile isTokChar)

/-- Case-insensitive scan for the first `charset=` occurrence, returning the
token that follows it. -/
def scanCharset : List Char → Option String
  | [] => none
  | c :: rest =>
    if ((c :: rest).take 8).map Char.toLower = "charset=".toList then
      some (charsetTokenOf ((c :: rest).drop 8))
    else scanCharset rest

/-- Modelled from the spec: `w3lib.encoding.http_content_type_encoding` —
parses a `Content-Type` header value for a `charset` parameter and
canonicalizes it; absent or unrecognized charsets yield `none`
(spec §4.2.2, §6). -/
def http_content_type_encoding (s : String) : Option String :=
  (scanCharset s.toList).bind resolve_encoding

/-- Modelled from the spec: `w3lib.encoding.html_body_declared_encoding` —
scans a bounded prefix (4096 bytes) of the raw body for an embedded
`charset=` declaration (HTML meta tag or XML prolog) using a permissive
byte-safe scan, and canonicalizes the name (spec §4.2.3). -/
def html_body_declared_encoding (b : Bytes) : Option String :=
  (scanCharset ((b.take 4096).map Char.ofNat)).bind resolve_encoding

/-- Lossy decode of a byte body under a canonical encoding name (model of
`w3lib`'s replace-on-error byte-to-text conversion).  Names outside the
model's codec table fall back to utf-8, matching the library's
utf-8-flavoured default; every name the embedded cascade can produce is in
the table. -/
def to_unicode (enc : String) (b : Bytes) : String :=
  match enc with
  | "ascii" => String.mk (asciiDecodeReplace b)
  | "utf-8" => String.mk (utf8DecodeReplace b)
  | "utf8" => String.mk (utf8DecodeReplace b)
  | "utf-8-sig" =>
    String.mk (utf8DecodeReplace (if b.take 3 = [0xEF, 0xBB, 0xBF] then b.drop 3 else b))
  | "cp1252" => String.mk (cp1252DecodeReplace b)
  | "utf-16-le" => String.mk (utf16DecodeReplace false b)
  | "utf-16-be" => String.mk (utf16DecodeReplace true b)
  | "utf-16" =>
    match b with
    | 0xFF :: 0xFE :: rest => String.mk (utf16DecodeReplace false rest)
    | 0xFE :: 0xFF :: rest => String.mk (utf16DecodeReplace true rest)
    | _ => String.mk (utf16DecodeReplace false b)
  | "utf-32-le" => String.mk (utf32DecodeReplace false b)
  | "utf-32-be" => String.mk (utf32DecodeReplace true b)
  | "utf-32" =>
    match b with
    | 0xFF :: 0xFE :: 0x00 :: 0x00 :: rest => String.mk (utf32DecodeReplace false rest)
    | 0x00 :: 0x00 :: 0xFE :: 0xFF :: rest => String.mk (utf32DecodeReplace true rest)
    | _ => String.mk (utf32DecodeReplace false b)
  | _ => String.mk (utf8DecodeReplace b)

/-- Modelled from the spec: `w3lib.encoding.html_to_unicode` — the combined
heuristic decode (spec §4.3): protocol-declared charset first, then a
byte-order-mark sniff, then the document's own declaration, then the
caller-supplied auto-detect function, then the caller's default encoding;
the chosen encoding's lossy decode of the body is returned alongside it. -/
def html_to_unicode (contentTypeHeader : String) (body : Bytes)
    (defaultEncoding : String) (autoDetect : Option (Bytes → Option String)) :
    String × String :=
  match http_content_type_encoding contentTypeHeader with
  | some enc => (enc, to_unicode enc body)
  | none =>
    match read_bom body with
    | some (enc, n) => (enc, to_unicode enc (body.drop n))
    | none =>
      let enc0 :=
        match html_body_declared_encoding body with
        | some e => some e
        | none =>
          match autoDetect with
          | some f => f body
          | none => none
      match enc0 with
      | some e => (e, to_unicode e body)
      | none => (defaultEncoding, to_unicode defaultEncoding body)

/-! ### Headers collaborator -/

/-- Modelled from the spec: the `Headers` collaborator (spec §3, §6) — an
ordered multi-valued mapping with case-insensitive key semantics; the core
consumes only `get(name, default)`.  Keys and values are kept as text. -/
structure Headers where
  entries : List (String × String)
deriving DecidableEq

/-- Character-wise lowercasing (the case-insensitivity used by the headers
model). -/
def lowerStr (s : String) : String :=
  String.mk (s.data.map Char.toLower)

/-- Case-insensitive first-match lookup with a default. -/
def Headers.get (h : Headers) (key dflt : String) : String :=
  match h.entries.find? (fun p => lowerStr p.1 == lowerStr key) with
  | some p => p.2
  | none => dflt

/-! ### data model (src/response.py) -/

/-- A Python body argument: `None`, a byte string, a text string, or a value
of any other type. -/
inductive PyBodyArg
  | noneV
  | bytes (b : Bytes)
  | text (s : String)
  | other
deriving DecidableEq

/-- Python exceptions surfaced by the embedded code. -/
inductive PyErr
  | typeError
  | codecError
deriving DecidableEq

/-- The plain `Response` (src/response.py lines 25–79): url, status,
headers, raw byte body and flags; `request`/`meta` are out of the claims'
scope. -/
structure Response where
  url : String
  status : Int
  headers : Headers
  body : Bytes
  flags : List String
deriving DecidableEq

/-- `Response._set_body` (lines 60–69): `None` normalizes to empty bytes,
bytes pass through, anything else is a `TypeError`. -/
def Response.set_body : PyBodyArg → Except PyErr Bytes
  | .noneV => .ok []
  | .bytes b => .ok b
  | .text _ => .error .typeError
  | .other => .error .typeError

/-- `Response.__init__` (lines 27–33): store headers and status, then
`_set_body`, then `_set_url` (the url is text, stored as-is). -/
def Response.construct (url : String) (status : Int) (headers : Headers)
    (body : PyBodyArg) (flags : List String) : Except PyErr Response :=
  match Response.set_body body with
  | .ok b => .ok { url := url, status := status, headers := headers, body := b, flags := flags }
  | .error e => .error e

/-- The state of a `TextResponse`'s encoding machinery: constructor inputs
plus the four write-once caches (`_encoding` is the constructor override;
`_cached_benc`/`_cached_ubody` are the fields of those names; the two memo
fields model the `memoizemethod_noargs` caches of `_headers_encoding` and
`_body_declared_encoding`, which the spec lists as `cachedHeaderEncoding` /
`cachedBodyDeclaredEncoding`). -/
structure EncState where
  headers : Headers
  body : Bytes
  encOverride : Option String
  cached_benc : Option String
  cached_ubody : Option String
  cached_headers_encoding : Option (Option String)
  cached_body_declared_encoding : Option (Option String)
deriving DecidableEq

/-- `TextResponse._DEFAULT_ENCODING` (line 84). -/
def DEFAULT_ENCODING : String := "ascii"

/-- Python string truthiness of an optional string: `None` and the empty
string are falsy. -/
def pyTruthyStr : Option String → Bool
  | none => false
  | some s => !(s == "")

/-- `TextResponse._headers_encoding` (lines 144–147), with its
`memoizemethod_noargs` cache made explicit: parse the `Content-Type` header
for a charset on first call, return the memo thereafter. -/
def EncState.headers_encoding (e : EncState) : Option String × EncState :=
  match e.cached_headers_encoding with
  | some v => (v, e)
  | none =>
    let v := http_content_type_encoding (e.headers.get "Content-Type" "")
    (v, { e with cached_headers_encoding := some v })

/-- `TextResponse._body_declared_encoding` (lines 167–169), memoized. -/
def EncState.body_declared_encoding (e : EncState) : Option String × EncState :=
  match e.cached_body_declared_encoding with
  | some v => (v, e)
  | none =>
    let v := html_body_declared_encoding e.body
    (v, { e with cached_body_declared_encoding := some v })

/-- `TextResponse._auto_detect_fun` (lines 159–165): try strict decoding
under `_DEFAULT_ENCODING`, `utf-8`, `cp1252` in that order and return the
first candidate's canonical name; `None` when all fail. -/
def auto_detect_fun (body : Bytes) : Option String :=
  if (asciiDecode body).isSome then resolve_encoding DEFAULT_ENCODING
  else if (utf8DecodeCore body).isSome then resolve_encoding "utf-8"
  else if (cp1252Decode body).isSome then resolve_encoding "cp1252"
  else none

/-- `TextResponse._body_inferred_encoding` (lines 149–157): on a cache miss
run `html_to_unicode` over the `Content-Type` header and the body with the
auto-detect fallback and the default encoding, storing both the inferred
encoding and the decoded body in one operation. -/
def EncState.body_inferred_encoding (e : EncState) : String × EncState :=
  match e.cached_benc with
  | some v => (v, e)
  | none =>
    let p := html_to_unicode (e.headers.get "Content-Type" "") e.body
      DEFAULT_ENCODING (some auto_detect_fun)
    (p.1, { e with cached_benc := some p.1, cached_ubody := some p.2 })

/-- `TextResponse._declared_encoding` (lines 120–122):
`self._encoding or self._headers_encoding() or self._body_declared_encoding()`
with Python `or` truthiness. -/
def EncState.declared_encoding (e : EncState) : Option String × EncState :=
  if pyTruthyStr e.encOverride then (e.encOverride, e)
  else
    let p := e.headers_encoding
    if pyTruthyStr p.1 then p
    else p.2.body_declared_encoding

/-- The `TextResponse.encoding` property (lines 116–118):
`self._declared_encoding() or self._body_inferred_encoding()`. -/
def EncState.encoding (e : EncState) : String × EncState :=
  let p := e.declared_encoding
  match p.1 with
  | some s => if s == "" then p.2.body_inferred_encoding else (s, p.2)
  | none => p.2.body_inferred_encoding

/-- The `TextResponse.text` property (lines 128–137): force `encoding`
first (its body-inference branch may fill `_cached_ubody`), then on a cache
miss decode the body via `html_to_unicode('charset=%s' % benc, self.body)`
(library defaults: no auto-detect function, default encoding `utf8`). -/
def EncState.text (e : EncState) : String × EncState :=
  let p := e.encoding
  match p.2.cached_ubody with
  | some u => (u, p.2)
  | none =>
    let u := (html_to_unicode ("charset=" ++ p.1) p.2.body "utf8" none).2
    (u, { p.2 with cached_ubody := some u })

/-- The `TextResponse` record: url, status, flags, and the encoding state
(headers, body, override, caches). -/
structure TextResponse where
  url : String
  status : Int
  flags : List String
  enc : EncState
deriving DecidableEq

instance : Inhabited TextResponse :=
  ⟨{ url := "", status := 0, flags := [],
     enc := { headers := ⟨[]⟩, body := [], encOverride := none,
              cached_benc := none, cached_ubody := none,
              cached_headers_encoding := none, cached_body_declared_encoding := none } }⟩

/-- The public `encoding` accessor of `TextResponse`. -/
def TextResponse.encoding (r : TextResponse) : String × TextResponse :=
  let p := r.enc.encoding
  (p.1, { r with enc := p.2 })

/-- The public `text` accessor of `TextResponse`. -/
def TextResponse.text (r : TextResponse) : String × TextResponse :=
  let p := r.enc.text
  (p.1, { r with enc := p.2 })

/-- `TextResponse.body_as_unicode` (lines 124–126): `return self.text`. -/
def TextResponse.body_as_unicode (r : TextResponse) : String × TextResponse :=
  r.text

/-- Model of Python's `str.encode` for the codecs the module's cascade can
produce: strict encoding of text under the (canonicalized) encoding name,
`none` on an unknown codec name or unencodable text. -/
def pyEncode (en : String) (s : String) : Option Bytes :=
  match resolve_encoding en with
  | some "ascii" => s.data.mapM asciiEncodeChar
  | some "utf-8" => some (s.data.flatMap (fun c => utf8EncodeChar c.toNat))
  | some "cp1252" => s.data.mapM cp1252EncodeChar
  | _ => none

/-- `TextResponse._set_body` (lines 102–110): text bodies require the
constructor override (`TypeError` otherwise) and are encoded under it
(unknown codec names or unencodable text raise); other bodies go through
`Response._set_body`. -/
def TextResponse.set_body (encOverride : Option String) : PyBodyArg → Except PyErr Bytes
  | .text s =>
    match encOverride with
    | none => .error .typeError
    | some en =>
      match pyEncode en s with
      | some b => .ok b
      | none => .error .codecError
  | b => Response.set_body b

/-- `TextResponse.__init__` plus the inherited `Response.__init__`
(lines 86–100, 27–33) under Python 3 semantics: pop the `encoding`
argument, zero the caches, store headers and status, run `_set_body`, then
`_set_url` — which evaluates `self.encoding` as an argument of
`to_native_str(url, self.encoding)` before storing the (text) url
unchanged. -/
def TextResponse.construct (url : String) (status : Int) (headers : Headers)
    (body : PyBodyArg) (flags : List String) (encoding : Option String) :
    Except PyErr TextResponse :=
  match TextResponse.set_body encoding body with
  | .error er => .error er
  | .ok bs =>
    let e0 : EncState :=
      { headers := headers, body := bs, encOverride := encoding,
        cached_benc := none, cached_ubody := none,
        cached_headers_encoding := none, cached_body_declared_encoding := none }
    let p := e0.encoding
    .ok { url := url, status := status, flags := flags, enc := p.2 }

/-- Total wrapper around `TextResponse.construct` for stating theorems at
inputs where construction succeeds. -/
def TextResponse.constructOk (url : String) (status : Int) (headers : Headers)
    (body : PyBodyArg) (flags : List String) (encoding : Option String) : TextResponse :=
  match TextResponse.construct url status headers body flags encoding with
  | .ok r => r
  | .error _ => default

/-! ### urljoin -/

/-- Is `c` allowed in a URL scheme (after the initial letter)? -/
def isSchemeChar (c : Char) : Bool :=
  c.isAlphanum || c.toNat == 43 || c.toNat == 45 || c.toNat == 46

/-- Split `scheme:rest` when the string begins with a well-formed scheme. -/
def splitOnScheme (u : String) : Option (String × String) :=
  let p := u.toList.span isSchemeChar
  match p.2 with
  | c :: rest =>
    if c.toNat == 58 && (match p.1 with | c0 :: _ => c0.isAlpha | [] => false)
    then some (String.mk p.1, String.mk rest) else none
  | [] => none

/-- Split `//netloc/path` into netloc and path (path keeps its leading `/`). -/
def splitNetloc : List Char → List Char × List Char
  | c1 :: c2 :: rest =>
    if c1.toNat == 47 && c2.toNat == 47 then rest.span (fun c => !(c.toNat == 47))
    else ([], c1 :: c2 :: rest)
  | l => ([], l)

/-- Split a path on `/` into segments. -/
def splitSegsAux (cur : List Char) : List Char → List String
  | [] => [String.mk cur.reverse]
  | c :: rest =>
    if c.toNat == 47 then String.mk cur.reverse :: splitSegsAux [] rest
    else splitSegsAux (c :: cur) rest

/-- One step of dot-segment resolution over a reversed accumulator. -/
def dotFold (acc : List String) (seg : String) : List String :=
  if seg == ".." then
    match acc with
    | _ :: y :: t => y :: t
    | l => l
  else if seg == "." then acc
  else seg :: acc

/-- Resolve `.` and `..` segments, keeping the usual trailing-slash
behavior when the final segment is a dot segment. -/
def resolveDots (segs : List String) : List String :=
  let r := (segs.foldl dotFold []).reverse
  match segs.getLast? with
  | some s => if s == "." || s == ".." then r ++ [""] else r
  | none => r

/-- Modelled from the spec: standard URL resolution
(`urllib.parse.urljoin`, spec §4.4) for absolute `scheme://netloc/path`
bases — absolute references win, `//`-references keep the scheme,
rooted references replace the path, and relative references merge with the
base path's directory, with dot segments resolved. -/
def pyUrljoin (base url : String) : String :=
  if base == "" then url
  else if url == "" then base
  else
    match splitOnScheme url with
    | some _ => url
    | none =>
      match splitOnScheme base with
      | none => url
      | some (sch, brest) =>
        let ul := url.toList
        match ul with
        | c1 :: c2 :: _ =>
          if c1.toNat == 47 && c2.toNat == 47 then sch ++ ":" ++ url else
          let q := splitNetloc brest.toList
          let netloc := String.mk q.1
          let path :=
            if c1.toNat == 47 then
              String.intercalate "/" (resolveDots (splitSegsAux [] ul))
            else
              String.intercalate "/" (resolveDots
                ((splitSegsAux [] q.2).dropLast ++ splitSegsAux [] ul))
          let path := if path == "" then "/" else path
          let path := if path.toList.head? = some '/' then path else "/" ++ path
          sch ++ "://" ++ netloc ++ path
        | [c1] =>
          let q := splitNetloc brest.toList
          let netloc := String.mk q.1
          let path :=
            if c1.toNat == 47 then "/"
            else String.intercalate "/" (resolveDots
              ((splitSegsAux [] q.2).dropLast ++ [String.mk [c1]]))
          let path := if path == "" then "/" else path
          let path := if path.toList.head? = some '/' then path else "/" ++ path
          sch ++ "://" ++ netloc ++ path
        | [] => base

/-- `Response.urljoin` (lines 78–79): join the relative url against
`self.url`. -/
def Response.urljoin (r : Response) (url : String) : String :=
  pyUrljoin r.url url

/-- The result type of `TextResponse.urljoin`: either a string, or (when
the relative url is empty) the base object itself, which `urljoin` returns
unchanged. -/
inductive UrljoinOut
  | str (s : String)
  | responseObject
deriving DecidableEq

/-- `TextResponse.urljoin` (lines 139–142): the source passes `(self)` —
the response object, not a string — as the base to `urllib`'s `urljoin`.
For a non-empty relative url Python's argument coercion then raises
`TypeError` (str mixed with non-str); for an empty relative url `urljoin`
returns the base, i.e. the response object itself. -/
def TextResponse.urljoin (_r : TextResponse) (url : String) : Except PyErr UrljoinOut :=
  if url == "" then .ok .responseObject else .error .typeError

/-! ### reachable states -/

/-- States of a `TextResponse` reachable through construction followed by
any sequence of the public accessors that touch the caches (`encoding`,
`text`, and `body_as_unicode`, the latter an alias of `text`). -/
inductive Reached : TextResponse → Prop
  | constructed (url : String) (st : Int) (hdrs : Headers) (body : PyBodyArg)
      (fl : List String) (ov : Option String) (r : TextResponse) :
      TextResponse.construct url st hdrs body fl ov = .ok r → Reached r
  | encodingStep (r : TextResponse) : Reached r → Reached r.encoding.2
  | textStep (r : TextResponse) : Reached r → Reached r.text.2

/-! ### helper lemmas: pure views and cache case analysis -/

/-- Pure value of the header-charset check. -/
def headersEncodingPure (e : EncState) : Option String :=
  http_content_type_encoding (e.headers.get "Content-Type" "")

/-- Pure value of the body-declaration check. -/
def bodyDeclaredPure (e : EncState) : Option String :=
  html_body_declared_encoding e.body

/-- Pure value of the body-inference pass (encoding, decoded text). -/
def bodyInferredPure (e : EncState) : String × String :=
  html_to_unicode (e.headers.get "Content-Type" "") e.body DEFAULT_ENCODING
    (some auto_detect_fun)

theorem headers_encoding_hit (e : EncState) (v : Option String)
    (h : e.cached_headers_encoding = some v) : e.headers_encoding = (v, e) := by
  unfold EncState.headers_encoding
  rw [h]

theorem headers_encoding_miss (e : EncState)
    (h : e.cached_headers_encoding = none) :
    e.headers_encoding = (headersEncodingPure e,
      { e with cached_headers_encoding := some (headersEncodingPure e) }) := by
  unfold EncState.headers_encoding
  rw [h]
  rfl

theorem body_declared_hit (e : EncState) (v : Option String)
    (h : e.cached_body_declared_encoding = some v) : e.body_declared_encoding = (v, e) := by
  unfold EncState.body_declared_encoding
  rw [h]

theorem body_declared_miss (e : EncState)
    (h : e.cached_body_declared_encoding = none) :
    e.body_declared_encoding = (bodyDeclaredPure e,
      { e with cached_body_declared_encoding := some (bodyDeclaredPure e) }) := by
  unfold EncState.body_declared_encoding
  rw [h]
  rfl

theorem body_inferred_hit (e : EncState) (v : String)
    (h : e.cached_benc = some v) : e.body_inferred_encoding = (v, e) := by
  unfold EncState.body_inferred_encoding
  rw [h]

theorem body_inferred_miss (e : EncState)
    (h : e.cached_benc = none) :
    e.body_inferred_encoding = ((bodyInferredPure e).1,
      { e with cached_benc := some (bodyInferredPure e).1,
               cached_ubody := some (bodyInferredPure e).2 }) := by
  unfold EncState.body_inferred_encoding
  rw [h]
  rfl

theorem pyTruthy_some_iff (s : String) : pyTruthyStr (some s) = true ↔ s ≠ "" := by
  simp [pyTruthyStr]

/-- Case analysis and replay behavior of `_declared_encoding`: its result,
that rerunning it after any update of the two body caches replays the same
answer without further writes, and that it touches nothing but its own two
memo fields (which only ever go from unset to set). -/
theorem declared_spec (e : EncState) :
    ∃ d e₁, e.declared_encoding = (d, e₁)
      ∧ (∀ x y, ({ e₁ with cached_benc := x, cached_ubody := y } : EncState).declared_encoding
            = (d, { e₁ with cached_benc := x, cached_ubody := y }))
      ∧ e₁.headers = e.headers ∧ e₁.body = e.body ∧ e₁.encOverride = e.encOverride
      ∧ e₁.cached_benc = e.cached_benc ∧ e₁.cached_ubody = e.cached_ubody
      ∧ (∀ v, e.cached_headers_encoding = some v → e₁.cached_headers_encoding = some v)
      ∧ (∀ v, e.cached_body_declared_encoding = some v → e₁.cached_body_declared_encoding = some v) := by
  by_cases hov : pyTruthyStr e.encOverride = true
  · refine ⟨e.encOverride, e, ?_, ?_, rfl, rfl, rfl, rfl, rfl, ?_, ?_⟩
    · simp [EncState.declared_encoding, hov]
    · intro x y; simp [EncState.declared_encoding, hov]
    · intro u h; exact h
    · intro u h; exact h
  · by_cases hc : e.cached_headers_encoding = none
    · by_cases hhp : pyTruthyStr (headersEncodingPure e) = true
      all_goals simp only [headersEncodingPure] at hhp
      · refine ⟨headersEncodingPure e,
          { e with cached_headers_encoding := some (headersEncodingPure e) },
          ?_, ?_, rfl, rfl, rfl, rfl, rfl, ?_, ?_⟩
        · simp [EncState.declared_encoding, EncState.headers_encoding, hov, hc, hhp,
            headersEncodingPure]
        · intro x y
          simp [EncState.declared_encoding, EncState.headers_encoding, hov, hc, hhp,
            headersEncodingPure]
        · intro u h; rw [hc] at h; cases h
        · intro u h; exact h
      · by_cases hbd : e.cached_body_declared_encoding = none
        · refine ⟨bodyDeclaredPure e,
            { e with cached_headers_encoding := some (headersEncodingPure e),
                     cached_body_declared_encoding := some (bodyDeclaredPure e) },
            ?_, ?_, rfl, rfl, rfl, rfl, rfl, ?_, ?_⟩
          · simp [EncState.declared_encoding, EncState.headers_encoding,
              EncState.body_declared_encoding, hov, hc, hhp, hbd, headersEncodingPure,
              bodyDeclaredPure]
          · intro x y
            simp [EncState.declared_encoding, EncState.headers_encoding,
              EncState.body_declared_encoding, hov, hc, hhp, hbd, headersEncodingPure,
              bodyDeclaredPure]
          · intro u h; rw [hc] at h; cases h
          · intro u h; rw [hbd] at h; cases h
        · obtain ⟨w, hw⟩ := Option.ne_none_iff_exists'.mp hbd
          refine ⟨w, { e with cached_headers_encoding := some (headersEncodingPure e) },
            ?_, ?_, rfl, rfl, rfl, rfl, rfl, ?_, ?_⟩
          · simp [EncState.declared_encoding, EncState.headers_encoding,
              EncState.body_declared_encoding, hov, hc, hhp, hw, headersEncodingPure]
          · intro x y
            simp [EncState.declared_encoding, EncState.headers_encoding,
              EncState.body_declared_encoding, hov, hc, hhp, hw, headersEncodingPure]
          · intro u h; rw [hc] at h; cases h
          · intro u h; exact h
    · obtain ⟨v, hv'⟩ := Option.ne_none_iff_exists'.mp hc
      by_cases hv : pyTruthyStr v = true
      · refine ⟨v, e, ?_, ?_, rfl, rfl, rfl, rfl, rfl, ?_, ?_⟩
        · simp [EncState.declared_encoding, EncState.headers_encoding, hov, hv', hv]
        · intro x y
          simp [EncState.declared_encoding, EncState.headers_encoding, hov, hv', hv]
        · intro u h; exact h
        · intro u h; exact h
      · by_cases hbd : e.cached_body_declared_encoding = none
        · refine ⟨bodyDeclaredPure e,
            { e with cached_body_declared_encoding := some (bodyDeclaredPure e) },
            ?_, ?_, rfl, rfl, rfl, rfl, rfl, ?_, ?_⟩
          · simp [EncState.declared_encoding, EncState.headers_encoding,
              EncState.body_declared_encoding, hov, hv', hv, hbd, bodyDeclaredPure]
          · intro x y
            simp [EncState.declared_encoding, EncState.headers_encoding,
              EncState.body_declared_encoding, hov, hv', hv, hbd, bodyDeclaredPure]
          · intro u h; exact h
          · intro u h; rw [hbd] at h; cases h
        · obtain ⟨w, hw⟩ := Option.ne_none_iff_exists'.mp hbd
          refine ⟨w, e, ?_, ?_, rfl, rfl, rfl, rfl, rfl, ?_, ?_⟩
          · simp [EncState.declared_encoding, EncState.headers_encoding,
              EncState.body_declared_encoding, hov, hv', hv, hw]
          · intro x y
            simp [EncState.declared_encoding, EncState.headers_encoding,
              EncState.body_declared_encoding, hov, hv', hv, hw]
          · intro u h; exact h
          · intro u h; exact h

/-- Case analysis and replay behavior of the `encoding` accessor: its
result, that rerunning it after any update of the decoded-text cache
replays the same answer without further writes, that it leaves the
constructor inputs alone, that the memo fields only ever go from unset to
set, that the declared-encoding value is unchanged by it, and that the two
body caches either stay exactly as they were or are filled together by the
body-inference pass. -/
theorem encoding_spec (e : EncState) :
    ∃ v e₂, e.encoding = (v, e₂)
      ∧ (∀ u, ({ e₂ with cached_ubody := u } : EncState).encoding
            = (v, { e₂ with cached_ubody := u }))
      ∧ e₂.headers = e.headers ∧ e₂.body = e.body ∧ e₂.encOverride = e.encOverride
      ∧ (∀ w, e.cached_benc = some w → e₂.cached_benc = some w)
      ∧ (∀ w, e.cached_headers_encoding = some w → e₂.cached_headers_encoding = some w)
      ∧ (∀ w, e.cached_body_declared_encoding = some w → e₂.cached_body_declared_encoding = some w)
      ∧ (∀ u, ({ e₂ with cached_ubody := u } : EncState).declared_encoding
            = (e.declared_encoding.1, { e₂ with cached_ubody := u }))
      ∧ (e₂.cached_benc.isSome = true ∨ pyTruthyStr e.declared_encoding.1 = true)
      ∧ ((e₂.cached_benc = e.cached_benc ∧ e₂.cached_ubody = e.cached_ubody)
          ∨ (e.cached_benc = none ∧ pyTruthyStr e.declared_encoding.1 = false
              ∧ ∃ a b, e₂.cached_benc = some a ∧ e₂.cached_ubody = some b)) := by
  obtain ⟨d, e₁, hd, hrep, hh, hb, ho, hbenc, hub, hp1, hp2⟩ := declared_spec e
  have hrepeta : ∀ y, ({ e₁ with cached_ubody := y } : EncState).declared_encoding
      = (d, { e₁ with cached_ubody := y }) := fun y => hrep e₁.cached_benc y
  have he₁ : e₁.declared_encoding = (d, e₁) := hrepeta e₁.cached_ubody
  match hdm : d with
  | some s =>
    by_cases hs : s = ""
    · subst hs
      by_cases hbe : e₁.cached_benc = none
      · refine ⟨(bodyInferredPure e₁).1,
          { e₁ with cached_benc := some (bodyInferredPure e₁).1,
                    cached_ubody := some (bodyInferredPure e₁).2 },
          ?_, ?_, hh, hb, ho, ?_, ?_, ?_, ?_, ?_, ?_⟩
        · simp [EncState.encoding, hd, EncState.body_inferred_encoding, hbe, bodyInferredPure]
        · intro u
          have := hrep (some (bodyInferredPure e₁).1) u
          simp [EncState.encoding, this, EncState.body_inferred_encoding]
        · intro w hw; rw [← hbenc, hbe] at hw; cases hw
        · intro w hw; simp [hp1 w hw]
        · intro w hw; simp [hp2 w hw]
        · intro u
          have := hrep (some (bodyInferredPure e₁).1) u
          rw [this, hd]
        · left; simp
        · right
          refine ⟨by rw [← hbenc, hbe], by simp [hd, pyTruthyStr],
            (bodyInferredPure e₁).1, (bodyInferredPure e₁).2, rfl, rfl⟩
      · obtain ⟨w, hw⟩ := Option.ne_none_iff_exists'.mp hbe
        refine ⟨w, e₁, ?_, ?_, hh, hb, ho, ?_, ?_, ?_, ?_, ?_, ?_⟩
        · simp [EncState.encoding, hd, EncState.body_inferred_encoding, hw]
        · intro u
          have := hrepeta u
          rw [hw] at this
          simp [EncState.encoding, this, EncState.body_inferred_encoding, hw]
        · intro a ha; rw [← hbenc] at ha; exact ha
        · exact hp1
        · exact hp2
        · intro u; have := hrepeta u; rw [this, hd]
        · left; simp [hw]
        · exact Or.inl ⟨hbenc, hub⟩
    · refine ⟨s, e₁, ?_, ?_, hh, hb, ho, ?_, ?_, ?_, ?_, ?_, ?_⟩
      · simp [EncState.encoding, hd, hs]
      · intro u
        have := hrepeta u
        simp [EncState.encoding, this, hs]
      · intro a ha; rw [← hbenc] at ha; exact ha
      · exact hp1
      · exact hp2
      · intro u; have := hrepeta u; rw [this, hd]
      · right; simp [hd, pyTruthyStr, hs]
      · exact Or.inl ⟨hbenc, hub⟩
  | none =>
    by_cases hbe : e₁.cached_benc = none
    · refine ⟨(bodyInferredPure e₁).1,
        { e₁ with cached_benc := some (bodyInferredPure e₁).1,
                  cached_ubody := some (bodyInferredPure e₁).2 },
        ?_, ?_, hh, hb, ho, ?_, ?_, ?_, ?_, ?_, ?_⟩
      · simp [EncState.encoding, hd, EncState.body_inferred_encoding, hbe, bodyInferredPure]
      · intro u
        have := hrep (some (bodyInferredPure e₁).1) u
        simp [EncState.encoding, this, EncState.body_inferred_encoding]
      · intro w hw; rw [← hbenc, hbe] at hw; cases hw
      · intro w hw; simp [hp1 w hw]
      · intro w hw; simp [hp2 w hw]
      · intro u
        have := hrep (some (bodyInferredPure e₁).1) u
        rw [this, hd]
      · left; simp
      · right
        refine ⟨by rw [← hbenc, hbe], by simp [hd, pyTruthyStr],
          (bodyInferredPure e₁).1, (bodyInferredPure e₁).2, rfl, rfl⟩
    · obtain ⟨w, hw⟩ := Option.ne_none_iff_exists'.mp hbe
      refine ⟨w, e₁, ?_, ?_, hh, hb, ho, ?_, ?_, ?_, ?_, ?_, ?_⟩
      · simp [EncState.encoding, hd, EncState.body_inferred_encoding, hw]
      · intro u
        have := hrepeta u
        rw [hw] at this
        simp [EncState.encoding, this, EncState.body_inferred_encoding, hw]
      · intro a ha; rw [← hbenc] at ha; exact ha
      · exact hp1
      · exact hp2
      · intro u; have := hrepeta u; rw [this, hd]
      · left; simp [hw]
      · exact Or.inl ⟨hbenc, hub⟩

/-- Case analysis and replay behavior of the `text` accessor: its result,
idempotence, commutation with a prior `encoding` access, preservation of
the constructor inputs and of already-set caches, and the fact that after
`text` the decoded-text cache is set and is justified either by the
body-inference caches or by a truthy declared encoding. -/
theorem text_spec (e : EncState) :
    ∃ t e₃, e.text = (t, e₃)
      ∧ e₃.text = (t, e₃)
      ∧ (e.encoding.2).text = (t, e₃)
      ∧ e₃.encoding = (e.encoding.1, e₃)
      ∧ e₃.headers = e.headers ∧ e₃.body = e.body ∧ e₃.encOverride = e.encOverride
      ∧ (∀ w, e.cached_benc = some w → e₃.cached_benc = some w)
      ∧ (∀ w, e.cached_headers_encoding = some w → e₃.cached_headers_encoding = some w)
      ∧ (∀ w, e.cached_body_declared_encoding = some w → e₃.cached_body_declared_encoding = some w)
      ∧ e₃.cached_ubody.isSome = true
      ∧ (e₃.cached_benc.isSome = true ∨ pyTruthyStr e₃.declared_encoding.1 = true)
      ∧ ((e₃.cached_benc = e.cached_benc
            ∧ (∀ w, e.cached_ubody = some w → e₃.cached_ubody = some w))
          ∨ (e.cached_benc = none ∧ pyTruthyStr e.declared_encoding.1 = false)) := by
  obtain ⟨v, e₂, he, hu, hh, hb, ho, hbench, hp1, hp2, hdecl, hsat, hW⟩ := encoding_spec e
  have heta : ({ e₂ with cached_ubody := e₂.cached_ubody } : EncState) = e₂ := rfl
  have hueta : e₂.encoding = (v, e₂) := by
    have := hu e₂.cached_ubody
    rwa [heta] at this
  have hdecleta : e₂.declared_encoding = (e.declared_encoding.1, e₂) := by
    have := hdecl e₂.cached_ubody
    rwa [heta] at this
  cases hc : e₂.cached_ubody with
  | some u0 =>
    refine ⟨u0, e₂, ?_, ?_, ?_, ?_, hh, hb, ho, hbench, hp1, hp2, ?_, ?_, ?_⟩
    · simp [EncState.text, he, hc]
    · simp [EncState.text, hueta, hc]
    · rw [he]; simp [EncState.text, hueta, hc]
    · rw [he]; exact hueta
    · simp [hc]
    · rcases hsat with h | h
      · exact Or.inl h
      · right; rw [hdecleta]; exact h
    · rcases hW with ⟨h1, h2⟩ | ⟨h1, h2, a, b, h3, h4⟩
      · exact Or.inl ⟨h1, fun w hw => by rw [h2]; exact hw⟩
      · exact Or.inr ⟨h1, h2⟩
  | none =>
    refine ⟨(html_to_unicode ("charset=" ++ v) e₂.body "utf8" none).2,
      { e₂ with cached_ubody := some (html_to_unicode ("charset=" ++ v) e₂.body "utf8" none).2 },
      ?_, ?_, ?_, ?_, hh, hb, ho, ?_, hp1, hp2, ?_, ?_, ?_⟩
    · simp [EncState.text, he, hc]
    · have h1 := hu (some (html_to_unicode ("charset=" ++ v) e₂.body "utf8" none).2)
      simp [EncState.text, h1]
    · rw [he]; simp [EncState.text, hueta, hc]
    · rw [he]
      exact hu (some (html_to_unicode ("charset=" ++ v) e₂.body "utf8" none).2)
    · intro w hw; exact hbench w hw
    · simp
    · rcases hsat with h | h
      · exact Or.inl h
      · right
        have := hdecl (some (html_to_unicode ("charset=" ++ v) e₂.body "utf8" none).2)
        rw [this]
        exact h
    · rcases hW with ⟨h1, h2⟩ | ⟨h1, h2, a, b, h3, h4⟩
      · refine Or.inl ⟨h1, fun w hw => ?_⟩
        rw [h2, hw] at hc
        cases hc
      · rw [h4] at hc
        cases hc

/-- The cache state of a freshly initialized `TextResponse` (all four
caches unset), just before `_set_url` evaluates `self.encoding`. -/
def freshEnc (hdrs : Headers) (B : Bytes) (ov : Option String) : EncState :=
  { headers := hdrs, body := B, encOverride := ov, cached_benc := none, cached_ubody := none,
    cached_headers_encoding := none, cached_body_declared_encoding := none }

theorem construct_bytes (u : String) (st : Int) (hdrs : Headers) (B : Bytes)
    (fl : List String) (ov : Option String) :
    TextResponse.construct u st hdrs (.bytes B) fl ov
      = .ok { url := u, status := st, flags := fl, enc := (freshEnc hdrs B ov).encoding.2 } := rfl

theorem constructOk_bytes (u : String) (st : Int) (hdrs : Headers) (B : Bytes)
    (fl : List String) (ov : Option String) :
    TextResponse.constructOk u st hdrs (.bytes B) fl ov
      = { url := u, status := st, flags := fl, enc := (freshEnc hdrs B ov).encoding.2 } := rfl

/-- The two invariants of the body caches maintained by every reachable
state: the inferred-encoding cache is never set without the decoded-text
cache, and a set decoded-text cache is justified either by the
body-inference caches or by a truthy declared encoding. -/
def EncInv (e : EncState) : Prop :=
  (e.cached_benc.isSome = true → e.cached_ubody.isSome = true) ∧
  (e.cached_ubody.isSome = true →
    (e.cached_benc.isSome = true ∨ pyTruthyStr e.declared_encoding.1 = true))

/-- Each cache field only ever goes from unset to set: values already
cached in `e` survive into `e'`. -/
def CachePreserved (e e' : EncState) : Prop :=
  (∀ v, e.cached_benc = some v → e'.cached_benc = some v) ∧
  (∀ v, e.cached_ubody = some v → e'.cached_ubody = some v) ∧
  (∀ v, e.cached_headers_encoding = some v → e'.cached_headers_encoding = some v) ∧
  (∀ v, e.cached_body_declared_encoding = some v → e'.cached_body_declared_encoding = some v)

theorem encInv_encoding (e : EncState) (h : EncInv e) :
    EncInv (e.encoding.2) ∧ CachePreserved e (e.encoding.2) := by
  obtain ⟨v, e₂, he, hu, hh, hb, ho, hbench, hp1, hp2, hdecl, hsat, hW⟩ := encoding_spec e
  have heta : ({ e₂ with cached_ubody := e₂.cached_ubody } : EncState) = e₂ := rfl
  have hdecleta : e₂.declared_encoding = (e.declared_encoding.1, e₂) := by
    have := hdecl e₂.cached_ubody
    rwa [heta] at this
  rw [he]
  rcases hW with ⟨h1, h2⟩ | ⟨h1, h2, a, b, h3, h4⟩
  · refine ⟨⟨?_, ?_⟩, ?_, ?_, hp1, hp2⟩
    · rw [h1, h2]; exact h.1
    · rw [h1, h2]
      intro hs
      rcases h.2 hs with hl | hr
      · exact Or.inl hl
      · right; rw [hdecleta]; exact hr
    · exact hbench
    · intro w hw; rw [h2]; exact hw
  · refine ⟨⟨?_, ?_⟩, ?_, ?_, hp1, hp2⟩
    · intro hs; simp [h4]
    · intro hs; left; simp [h3]
    · exact hbench
    · intro w hw
      rcases h.2 (by simp [hw]) with hl | hr
      · rw [h1] at hl; cases hl
      · rw [hr] at h2; cases h2
  
theorem encInv_text (e : EncState) (h : EncInv e) :
    EncInv (e.text.2) ∧ CachePreserved e (e.text.2) := by
  obtain ⟨t, e₃, ht, ht2, ht3, ht4, hh, hb, ho, hbench, hp1, hp2, hus, hsat, hWt⟩ := text_spec e
  rw [ht]
  refine ⟨⟨fun _ => hus, fun _ => hsat⟩, hbench, ?_, hp1, hp2⟩
  rcases hWt with ⟨h1, h2⟩ | ⟨h1, h2⟩
  · exact h2
  · intro w hw
    rcases h.2 (by simp [hw]) with hl | hr
    · rw [h1] at hl; cases hl
    · rw [hr] at h2; cases h2

theorem reached_inv (r : TextResponse) (h : Reached r) : EncInv r.enc := by
  induction h with
  | constructed u st hdrs body fl ov r hcon =>
    cases hsb : TextResponse.set_body ov body with
    | error er => rw [TextResponse.construct, hsb] at hcon; cases hcon
    | ok bs =>
      rw [TextResponse.construct, hsb] at hcon
      cases hcon
      have hfresh : EncInv (freshEnc hdrs bs ov) := by
        constructor
        · intro hx; cases hx
        · intro hx; cases hx
      exact (encInv_encoding _ hfresh).1
  | encodingStep r hr ih => exact (encInv_encoding r.enc ih).1
  | textStep r hr ih => exact (encInv_text r.enc ih).1

theorem constructOk_encoding_val (u : String) (st : Int) (hdrs : Headers) (B : Bytes)
    (fl : List String) (ov : Option String) :
    (TextResponse.encoding (TextResponse.constructOk u st hdrs (.bytes B) fl ov)).1
      = (freshEnc hdrs B ov).encoding.1 := by
  obtain ⟨v, e₂, he, hu, hh, hb, ho, hbench, hp1, hp2, hdecl, hsat, hW⟩ :=
    encoding_spec (freshEnc hdrs B ov)
  have heta : ({ e₂ with cached_ubody := e₂.cached_ubody } : EncState) = e₂ := rfl
  have hueta : e₂.encoding = (v, e₂) := by
    have := hu e₂.cached_ubody
    rwa [heta] at this
  rw [constructOk_bytes]
  simp [TextResponse.encoding, he, hueta]

theorem constructOk_text_val (u : String) (st : Int) (hdrs : Headers) (B : Bytes)
    (fl : List String) (ov : Option String) :
    (TextResponse.text (TextResponse.constructOk u st hdrs (.bytes B) fl ov)).1
      = (freshEnc hdrs B ov).text.1 := by
  obtain ⟨t, e₃, ht, ht2, ht3, ht4, hh, hb, ho, hbench, hp1, hp2, hus, hsat, hWt⟩ :=
    text_spec (freshEnc hdrs B ov)
  rw [constructOk_bytes]
  simp [TextResponse.text, ht3, ht]

/-! ### claims -/

/-- C10: `body_as_unicode()` returns exactly the value of the `text`
accessor (and has the same effect on the object), being a one-line
delegation to it. -/
theorem C10_body_as_unicode_is_text (r : TextResponse) :
    TextResponse.body_as_unicode r = TextResponse.text r := rfl

/-- C1: evaluated at the claim's inputs, the plain `Response.urljoin`
resolves relative references as claimed, but `TextResponse.urljoin` —
which passes the response object itself instead of its URL to the
URL-resolution routine — raises a `TypeError` instead of returning the
claimed absolute URLs. -/
theorem C1_urljoin_evaluation :
    Response.urljoin
        { url := "http://example.com/a/b", status := 200, headers := ⟨[]⟩,
          body := [], flags := [] } "/path" = "http://example.com/path"
  ∧ Response.urljoin
        { url := "http://example.com/a/b", status := 200, headers := ⟨[]⟩,
          body := [], flags := [] } "c" = "http://example.com/a/c"
  ∧ TextResponse.urljoin
        (TextResponse.constructOk "http://example.com/a/b" 200 ⟨[]⟩ (.bytes []) [] none)
        "/path" = .error .typeError
  ∧ TextResponse.urljoin
        (TextResponse.constructOk "http://example.com/a/b" 200 ⟨[]⟩ (.bytes []) [] none)
        "c" = .error .typeError := by
  refine ⟨?_, ?_, rfl, rfl⟩ <;> rfl

/-- C9: body typing is enforced at construction: a plain `Response` rejects
text and other non-byte bodies with `TypeError`; a `TextResponse` rejects a
text body without an override encoding with `TypeError` at construction
time; and a `None` body normalizes to empty bytes in both classes. -/
theorem C9_body_typing :
    (∀ (url : String) (st : Int) (hdrs : Headers) (fl : List String) (s : String),
      Response.construct url st hdrs (.text s) fl = .error .typeError)
  ∧ (∀ (url : String) (st : Int) (hdrs : Headers) (fl : List String),
      Response.construct url st hdrs .other fl = .error .typeError)
  ∧ (∀ (url : String) (st : Int) (hdrs : Headers) (fl : List String),
      ∃ r, Response.construct url st hdrs .noneV fl = .ok r ∧ r.body = [])
  ∧ (∀ (url : String) (st : Int) (hdrs : Headers) (fl : List String) (s : String),
      TextResponse.construct url st hdrs (.text s) fl none = .error .typeError)
  ∧ (∀ (url : String) (st : Int) (hdrs : Headers) (fl : List String) (ov : Option String),
      ∃ r, TextResponse.construct url st hdrs .noneV fl ov = .ok r ∧ r.enc.body = []) := by
  refine ⟨fun _ _ _ _ _ => rfl, fun _ _ _ _ => rfl,
    fun _ _ _ _ => ⟨_, rfl, rfl⟩, fun _ _ _ _ _ => rfl, fun url st hdrs fl ov => ?_⟩
  obtain ⟨v, e₂, he, hu, hh, hb, ho, hbench, hp1, hp2, hdecl, hsat, hW⟩ :=
    encoding_spec (freshEnc hdrs [] ov)
  refine ⟨{ url := url, status := st, flags := fl, enc := (freshEnc hdrs [] ov).encoding.2 },
    rfl, ?_⟩
  rw [he]
  exact hb

/-- C7: `text` access is total — constructing with any byte body succeeds
and decoding never raises, undecodable bytes being replaced with U+FFFD —
and at the claim's instance (body `0xFF`, override utf-8) the decoded text
is exactly one replacement character. -/
theorem C7_text_total_with_replacement :
    (∀ (url : String) (st : Int) (hdrs : Headers) (B : Bytes) (fl : List String)
        (ov : Option String),
      ∃ r, TextResponse.construct url st hdrs (.bytes B) fl ov = .ok r)
  ∧ (TextResponse.text (TextResponse.constructOk "http://example.com/" 200 ⟨[]⟩
        (.bytes [0xFF]) [] (some "utf-8"))).1 = String.mk [replChar] := by
  constructor
  · intro url st hdrs B fl ov
    exact ⟨_, construct_bytes url st hdrs B fl ov⟩
  · decide

/-- C6: the `encoding` and `text` accessors are idempotent — a second
access returns the same value — the value of `text` is unaffected by
whether `encoding` was accessed first, and an intervening `text` access
does not change what `encoding` returns. -/
theorem C6_idempotent_accessors (r : TextResponse) :
    (TextResponse.encoding (TextResponse.encoding r).2).1 = (TextResponse.encoding r).1
  ∧ (TextResponse.text (TextResponse.text r).2).1 = (TextResponse.text r).1
  ∧ (TextResponse.text (TextResponse.encoding r).2).1 = (TextResponse.text r).1
  ∧ (TextResponse.encoding (TextResponse.text r).2).1 = (TextResponse.encoding r).1 := by
  obtain ⟨v, e₂, he, hu, hh, hb, ho, hbench, hp1, hp2, hdecl, hsat, hW⟩ := encoding_spec r.enc
  obtain ⟨t, e₃, ht, ht2, ht3, ht4, hh3, hb3, ho3, hbench3, hp13, hp23, hus, hsat3, hWt⟩ :=
    text_spec r.enc
  have heta : ({ e₂ with cached_ubody := e₂.cached_ubody } : EncState) = e₂ := rfl
  have hueta : e₂.encoding = (v, e₂) := by
    have := hu e₂.cached_ubody
    rwa [heta] at this
  have ht3' : e₂.text = (t, e₃) := by rw [he] at ht3; exact ht3
  refine ⟨?_, ?_, ?_, ?_⟩
  · simp [TextResponse.encoding, he, hueta]
  · simp [TextResponse.text, ht, ht2]
  · simp [TextResponse.text, TextResponse.encoding, he, ht3', ht]
  · simp [TextResponse.text, TextResponse.encoding, ht, ht4]

/-- C3 counterexample: at a concrete `TextResponse` with an override
encoding, the public `text` operation leaves the object with the
decoded-text cache set and the body-encoding cache unset — exactly one of
the two cache fields is set, contradicting the claim. -/
theorem C3_counterexample :
    ((TextResponse.text (TextResponse.constructOk "http://example.com/" 200 ⟨[]⟩
        (.bytes [104, 105]) [] (some "utf-8"))).2.enc.cached_ubody).isSome = true
  ∧ (TextResponse.text (TextResponse.constructOk "http://example.com/" 200 ⟨[]⟩
        (.bytes [104, 105]) [] (some "utf-8"))).2.enc.cached_benc = none := by
  constructor
  · decide
  · decide

/-- C3 amended: the implication holds in one direction only — in every
reachable state, if `_cached_benc` is set then `_cached_ubody` is set (the
body-inference pass sets them together), but `text` may set
`_cached_ubody` alone when the encoding was declared. -/
theorem C3_amended_benc_implies_ubody (r : TextResponse) (h : Reached r)
    (hb : r.enc.cached_benc.isSome = true) : r.enc.cached_ubody.isSome = true :=
  (reached_inv r h).1 hb

/-- C3 witness: the amended claim applied at a concretely constructed
response whose construction runs the body-inference pass. -/
theorem C3_amended_witness :
    (TextResponse.constructOk "http://example.com/" 200 ⟨[]⟩
      (.bytes [104, 105]) [] none).enc.cached_ubody.isSome = true :=
  C3_amended_benc_implies_ubody
    (TextResponse.constructOk "http://example.com/" 200 ⟨[]⟩ (.bytes [104, 105]) [] none)
    (Reached.constructed "http://example.com/" 200 ⟨[]⟩ (.bytes [104, 105]) [] none _ rfl)
    (by decide)

/-- C4 counterexample: at a concrete `TextResponse` constructed with no
override encoding, all four cache fields are already set when construction
returns, because `_set_url` evaluates `self.encoding` (as an argument of
`to_native_str`) during construction — contradicting the claim that they
are still unset. -/
theorem C4_counterexample :
    (TextResponse.constructOk "http://example.com/" 200 ⟨[]⟩
        (.bytes [104, 105]) [] none).enc.cached_benc = some "ascii"
  ∧ (TextResponse.constructOk "http://example.com/" 200 ⟨[]⟩
        (.bytes [104, 105]) [] none).enc.cached_ubody = some "hi"
  ∧ (TextResponse.constructOk "http://example.com/" 200 ⟨[]⟩
        (.bytes [104, 105]) [] none).enc.cached_headers_encoding = some none
  ∧ (TextResponse.constructOk "http://example.com/" 200 ⟨[]⟩
        (.bytes [104, 105]) [] none).enc.cached_body_declared_encoding = some none := by
  refine ⟨?_, ?_, ?_, ?_⟩ <;> decide

/-- C4 amended: the caches are write-once — in every reachable state a set
cache field keeps its value across the public accessors — and when an
override encoding is supplied the four caches are still unset when
construction returns (construction does evaluate `encoding`, but the
override short-circuits the cascade before any cache is written; without
an override, construction itself may populate them). -/
theorem C4_lazy_write_once_caches :
    (∀ (url : String) (st : Int) (hdrs : Headers) (body : PyBodyArg) (fl : List String)
        (E : String) (r : TextResponse), E ≠ "" →
      TextResponse.construct url st hdrs body fl (some E) = .ok r →
        r.enc.cached_benc = none ∧ r.enc.cached_ubody = none
          ∧ r.enc.cached_headers_encoding = none ∧ r.enc.cached_body_declared_encoding = none)
  ∧ (∀ r : TextResponse, Reached r →
      CachePreserved r.enc (TextResponse.encoding r).2.enc
        ∧ CachePreserved r.enc (TextResponse.text r).2.enc) := by
  constructor
  · intro url st hdrs body fl E r hne hcon
    cases hsb : TextResponse.set_body (some E) body with
    | error er => rw [TextResponse.construct, hsb] at hcon; cases hcon
    | ok bs =>
      rw [TextResponse.construct, hsb] at hcon
      cases hcon
      have hfix : (freshEnc hdrs bs (some E)).encoding = (E, freshEnc hdrs bs (some E)) := by
        simp [EncState.encoding, EncState.declared_encoding, freshEnc, pyTruthyStr, hne]
      have hlit : ({ headers := hdrs, body := bs, encOverride := some E, cached_benc := none,
                     cached_ubody := none, cached_headers_encoding := none,
                     cached_body_declared_encoding := none } : EncState)
          = freshEnc hdrs bs (some E) := rfl
      rw [hlit, hfix]
      simp [freshEnc]
  · intro r hr
    exact ⟨(encInv_encoding r.enc (reached_inv r hr)).2,
      (encInv_text r.enc (reached_inv r hr)).2⟩

/-- C4 witness: the amended claim's construction clause applied at a
concrete response with an override encoding, whose caches are all unset
after construction. -/
theorem C4_lazy_write_once_caches_witness :
    (TextResponse.constructOk "http://example.com/" 200 ⟨[]⟩
        (.bytes [104]) [] (some "utf-8")).enc.cached_benc = none
  ∧ (TextResponse.constructOk "http://example.com/" 200 ⟨[]⟩
        (.bytes [104]) [] (some "utf-8")).enc.cached_ubody = none
  ∧ (TextResponse.constructOk "http://example.com/" 200 ⟨[]⟩
        (.bytes [104]) [] (some "utf-8")).enc.cached_headers_encoding = none
  ∧ (TextResponse.constructOk "http://example.com/" 200 ⟨[]⟩
        (.bytes [104]) [] (some "utf-8")).enc.cached_body_declared_encoding = none :=
  C4_lazy_write_once_caches.1 "http://example.com/" 200 ⟨[]⟩ (.bytes [104]) []
    "utf-8" (TextResponse.constructOk "http://example.com/" 200 ⟨[]⟩
      (.bytes [104]) [] (some "utf-8")) (by decide) rfl

theorem resolve_ne_empty (s c : String) (h : resolve_encoding s = some c) : c ≠ "" := by
  unfold resolve_encoding at h
  split at h <;> (try cases h) <;> decide

theorem hcte_ne_empty (s c : String) (h : http_content_type_encoding s = some c) : c ≠ "" := by
  unfold http_content_type_encoding at h
  cases hsc : scanCharset s.toList with
  | none => rw [hsc] at h; cases h
  | some tok => rw [hsc] at h; exact resolve_ne_empty tok c h

theorem hbde_ne_empty (B : Bytes) (c : String)
    (h : html_body_declared_encoding B = some c) : c ≠ "" := by
  unfold html_body_declared_encoding at h
  cases hsc : scanCharset ((B.take 4096).map Char.ofNat) with
  | none => rw [hsc] at h; cases h
  | some tok => rw [hsc] at h; exact resolve_ne_empty tok c h

theorem fresh_enc_override (hdrs : Headers) (B : Bytes) (E : String) (hne : E ≠ "") :
    (freshEnc hdrs B (some E)).encoding.1 = E := by
  have htr : pyTruthyStr (some E) = true := by simp [pyTruthyStr, hne]
  simp [EncState.encoding, EncState.declared_encoding, freshEnc, htr, hne]

theorem fresh_enc_headers (hdrs : Headers) (B : Bytes) (ov : Option String) (en : String)
    (hov : pyTruthyStr ov = false)
    (hh : http_content_type_encoding (hdrs.get "Content-Type" "") = some en) :
    (freshEnc hdrs B ov).encoding.1 = en := by
  have hne := hcte_ne_empty _ _ hh
  have htr : pyTruthyStr (some en) = true := by simp [pyTruthyStr, hne]
  simp [EncState.encoding, EncState.declared_encoding, EncState.headers_encoding,
    freshEnc, hov, hh, htr, hne]

theorem fresh_enc_bodydecl (hdrs : Headers) (B : Bytes) (ov : Option String) (en : String)
    (hov : pyTruthyStr ov = false)
    (hh : http_content_type_encoding (hdrs.get "Content-Type" "") = none)
    (hbd : html_body_declared_encoding B = some en) :
    (freshEnc hdrs B ov).encoding.1 = en := by
  have hne := hbde_ne_empty _ _ hbd
  have htr : pyTruthyStr (some en) = true := by simp [pyTruthyStr, hne]
  have hfa : pyTruthyStr (none : Option String) = false := rfl
  simp [EncState.encoding, EncState.declared_encoding, EncState.headers_encoding,
    EncState.body_declared_encoding, freshEnc, hov, hh, hbd, htr, hfa, hne]

theorem fresh_enc_inferred (hdrs : Headers) (B : Bytes) (ov : Option String)
    (hov : pyTruthyStr ov = false)
    (hh : http_content_type_encoding (hdrs.get "Content-Type" "") = none)
    (hbd : html_body_declared_encoding B = none) :
    (freshEnc hdrs B ov).encoding.1
      = (html_to_unicode (hdrs.get "Content-Type" "") B DEFAULT_ENCODING
          (some auto_detect_fun)).1 := by
  have hfa : pyTruthyStr (none : Option String) = false := rfl
  simp [EncState.encoding, EncState.declared_encoding, EncState.headers_encoding,
    EncState.body_declared_encoding, EncState.body_inferred_encoding, freshEnc, hov, hh, hbd,
    hfa]

/-- C2: the `encoding` accessor applies the cascade in strict
first-match-wins order — constructor override, else the `Content-Type`
charset, else the body-declared encoding, else the body-inferred encoding —
and when an earlier signal is present the conclusion does not depend on any
later signal (in particular the header clause holds for every body). -/
theorem C2_encoding_cascade_order (url : String) (st : Int) (hdrs : Headers) (B : Bytes)
    (fl : List String) (ov : Option String) :
    (∀ E, ov = some E → E ≠ "" →
      (TextResponse.encoding (TextResponse.constructOk url st hdrs (.bytes B) fl ov)).1 = E)
  ∧ (pyTruthyStr ov = false →
      ∀ en, http_content_type_encoding (hdrs.get "Content-Type" "") = some en →
      (TextResponse.encoding (TextResponse.constructOk url st hdrs (.bytes B) fl ov)).1 = en)
  ∧ (pyTruthyStr ov = false →
      http_content_type_encoding (hdrs.get "Content-Type" "") = none →
      ∀ en, html_body_declared_encoding B = some en →
      (TextResponse.encoding (TextResponse.constructOk url st hdrs (.bytes B) fl ov)).1 = en)
  ∧ (pyTruthyStr ov = false →
      http_content_type_encoding (hdrs.get "Content-Type" "") = none →
      html_body_declared_encoding B = none →
      (TextResponse.encoding (TextResponse.constructOk url st hdrs (.bytes B) fl ov)).1
        = (html_to_unicode (hdrs.get "Content-Type" "") B DEFAULT_ENCODING
            (some auto_detect_fun)).1) := by
  refine ⟨?_, ?_, ?_, ?_⟩
  · intro E hE hne
    rw [constructOk_encoding_val, hE]
    exact fresh_enc_override hdrs B E hne
  · intro hov en hh
    rw [constructOk_encoding_val]
    exact fresh_enc_headers hdrs B ov en hov hh
  · intro hov hh en hbd
    rw [constructOk_encoding_val]
    exact fresh_enc_bodydecl hdrs B ov en hov hh hbd
  · intro hov hh hbd
    rw [constructOk_encoding_val]
    exact fresh_enc_inferred hdrs B ov hov hh hbd

/-- C2 witness: with no override and a `Content-Type: text/html;
charset=UTF-8` header, resolution returns the canonical utf-8 label even
though the document body declares cp1252. -/
theorem C2_encoding_cascade_order_witness :
    (TextResponse.encoding (TextResponse.constructOk "http://example.com/" 200
      ⟨[("Content-Type", "text/html; charset=UTF-8")]⟩
      (.bytes (("<meta charset=\"cp1252\">").data.map Char.toNat)) [] none)).1 = "utf-8" :=
  (C2_encoding_cascade_order "http://example.com/" 200
    ⟨[("Content-Type", "text/html; charset=UTF-8")]⟩
    (("<meta charset=\"cp1252\">").data.map Char.toNat) [] none).2.1 rfl "utf-8" (by decide)

theorem html_to_unicode_fallback (ct : String) (B : Bytes) (d : String)
    (f : Bytes → Option String)
    (hh : http_content_type_encoding ct = none) (hbom : read_bom B = none)
    (hbd : html_body_declared_encoding B = none) :
    html_to_unicode ct B d (some f)
      = ((f B).getD d, to_unicode ((f B).getD d) B) := by
  cases hf : f B <;> simp [html_to_unicode, hh, hbom, hbd, hf]

theorem fresh_text_no_declared (hdrs : Headers) (B : Bytes) (ov : Option String)
    (hov : pyTruthyStr ov = false)
    (hh : http_content_type_encoding (hdrs.get "Content-Type" "") = none)
    (hbd : html_body_declared_encoding B = none) :
    (freshEnc hdrs B ov).text.1
      = (html_to_unicode (hdrs.get "Content-Type" "") B DEFAULT_ENCODING
          (some auto_detect_fun)).2 := by
  have hfa : pyTruthyStr (none : Option String) = false := rfl
  simp [EncState.text, EncState.encoding, EncState.declared_encoding,
    EncState.headers_encoding, EncState.body_declared_encoding,
    EncState.body_inferred_encoding, freshEnc, hov, hh, hbd, hfa]

/-- C8: the auto-detect fallback tries strict decoding under `ascii` (the
ASCII-compatible default), then `utf-8`, then `cp1252`, in that order,
returning the first candidate that decodes without error and `None` when
all fail; when no override, transport, BOM, or document-declared encoding
exists, resolution returns the auto-detect result, falling back to the
default encoding — under which the body is decoded lossily — and a
pure-ASCII body therefore yields the default encoding. -/
theorem C8_auto_detect_fallback :
    (∀ B : Bytes, (asciiDecode B).isSome = true → auto_detect_fun B = some "ascii")
  ∧ (∀ B : Bytes, (asciiDecode B).isSome = false → (utf8DecodeCore B).isSome = true →
      auto_detect_fun B = some "utf-8")
  ∧ (∀ B : Bytes, (asciiDecode B).isSome = false → (utf8DecodeCore B).isSome = false →
      (cp1252Decode B).isSome = true → auto_detect_fun B = some "cp1252")
  ∧ (∀ B : Bytes, (asciiDecode B).isSome = false → (utf8DecodeCore B).isSome = false →
      (cp1252Decode B).isSome = false → auto_detect_fun B = none)
  ∧ (∀ (url : String) (st : Int) (hdrs : Headers) (B : Bytes) (fl : List String),
      http_content_type_encoding (hdrs.get "Content-Type" "") = none →
      read_bom B = none → html_body_declared_encoding B = none →
      (TextResponse.encoding (TextResponse.constructOk url st hdrs (.bytes B) fl none)).1
        = (auto_detect_fun B).getD DEFAULT_ENCODING)
  ∧ (∀ (url : String) (st : Int) (hdrs : Headers) (B : Bytes) (fl : List String),
      http_content_type_encoding (hdrs.get "Content-Type" "") = none →
      read_bom B = none → html_body_declared_encoding B = none →
      auto_detect_fun B = none →
      (TextResponse.text (TextResponse.constructOk url st hdrs (.bytes B) fl none)).1
        = to_unicode DEFAULT_ENCODING B) := by
  have hres1 : resolve_encoding DEFAULT_ENCODING = some "ascii" := by decide
  have hres2 : resolve_encoding "utf-8" = some "utf-8" := by decide
  have hres3 : resolve_encoding "cp1252" = some "cp1252" := by decide
  refine ⟨?_, ?_, ?_, ?_, ?_, ?_⟩
  · intro B h; simp [auto_detect_fun, h, hres1]
  · intro B h1 h2; simp [auto_detect_fun, h1, h2, hres2]
  · intro B h1 h2 h3; simp [auto_detect_fun, h1, h2, h3, hres3]
  · intro B h1 h2 h3; simp [auto_detect_fun, h1, h2, h3]
  · intro url st hdrs B fl hh hbom hbd
    rw [constructOk_encoding_val, fresh_enc_inferred hdrs B none rfl hh hbd,
      html_to_unicode_fallback _ _ _ _ hh hbom hbd]
  · intro url st hdrs B fl hh hbom hbd hauto
    rw [constructOk_text_val, fresh_text_no_declared hdrs B none rfl hh hbd,
      html_to_unicode_fallback _ _ _ _ hh hbom hbd, hauto]
    rfl

/-- C8 witness: a pure-ASCII body with no encoding signals resolves to the
default encoding `ascii` through the auto-detect fallback. -/
theorem C8_auto_detect_fallback_witness :
    (TextResponse.encoding (TextResponse.constructOk "http://example.com/" 200 ⟨[]⟩
      (.bytes [65, 66]) [] none)).1 = "ascii" := by
  have h := C8_auto_detect_fallback.2.2.2.2.1 "http://example.com/" 200 ⟨[]⟩ [65, 66] []
    (by decide) (by decide) (by decide)
  rw [h]
  decide

theorem takeWhile_of_all {p : Char → Bool} :
    ∀ l : List Char, l.all p = true → l.takeWhile p = l
  | [], _ => rfl
  | c :: r, h => by
    rw [List.all_cons] at h
    have h1 := (Bool.and_eq_true _ _).mp h
    simp [List.takeWhile_cons, h1.1, takeWhile_of_all r h1.2]

theorem tok_not_quote (ch : Char) (h : isTokChar ch = true) :
    (ch == '"' || ch == Char.ofNat 39) = false := by
  have h1 : ch ≠ '"' := by
    intro he; subst he; exact absurd h (by decide)
  have h2 : ch ≠ Char.ofNat 39 := by
    intro he; subst he; exact absurd h (by decide)
  simp [h1, h2]

theorem charsetTokenOf_self (E : String) (htok : E.data.all isTokChar = true) :
    charsetTokenOf E.data = E := by
  cases E with
  | mk d =>
    cases d with
    | nil => rfl
    | cons ch r =>
      rw [List.all_cons] at htok
      have h1 := (Bool.and_eq_true _ _).mp htok
      have hq := tok_not_quote ch h1.1
      have htw : (ch :: r).takeWhile isTokChar = ch :: r :=
        takeWhile_of_all (ch :: r) (by rw [List.all_cons]; simp [h1.1, h1.2])
      simp [charsetTokenOf, hq, htw]

theorem scanCharset_charset_append (E : String) (htok : E.data.all isTokChar = true) :
    scanCharset ("charset=" ++ E).data = some E := by
  have hlit : "charset=".data = ['c', 'h', 'a', 'r', 's', 'e', 't', '='] := rfl
  have hdata : ("charset=" ++ E).data
      = 'c' :: 'h' :: 'a' :: 'r' :: 's' :: 'e' :: 't' :: '=' :: E.data := by
    rw [String.data_append, hlit]
    rfl
  rw [hdata, scanCharset]
  rw [show (('c' :: 'h' :: 'a' :: 'r' :: 's' :: 'e' :: 't' :: '=' :: E.data).take 8)
      = ['c', 'h', 'a', 'r', 's', 'e', 't', '='] from rfl]
  rw [if_pos (by decide)]
  rw [show (('c' :: 'h' :: 'a' :: 'r' :: 's' :: 'e' :: 't' :: '=' :: E.data).drop 8)
      = E.data from rfl]
  rw [charsetTokenOf_self E htok]

theorem ascii_roundtrip :
    ∀ (cs : List Char) (B : Bytes), cs.mapM asciiEncodeChar = some B →
      asciiDecodeReplace B = cs
  | [], B, h => by
    cases h
    rfl
  | c :: cs, B, h => by
    rw [List.mapM_cons] at h
    cases hc : asciiEncodeChar c with
    | none => rw [hc] at h; cases h
    | some b =>
      rw [hc] at h
      cases hcs : cs.mapM asciiEncodeChar with
      | none => rw [hcs] at h; cases h
      | some bs =>
        rw [hcs] at h
        cases h
        have hb : b = c.toNat ∧ c.toNat < 128 := by
          unfold asciiEncodeChar at hc
          by_cases hlt : c.toNat < 128
          · rw [if_pos hlt] at hc; cases hc; exact ⟨rfl, hlt⟩
          · rw [if_neg hlt] at hc; cases hc
        rw [asciiDecodeReplace, hb.1, if_pos hb.2, Char.ofNat_toNat,
          ascii_roundtrip cs bs hcs]

theorem cp1252_byte_roundtrip (c : Char) (b : Nat) (h : cp1252EncodeChar c = some b) :
    cp1252DecodeByte b = some c.toNat := by
  unfold cp1252EncodeChar at h
  by_cases h1 : c.toNat < 0x80
  · rw [if_pos h1] at h
    cases h
    unfold cp1252DecodeByte
    rw [if_pos h1]
  · rw [if_neg h1] at h
    by_cases h2 : 0xA0 ≤ c.toNat ∧ c.toNat < 0x100
    · rw [if_pos h2] at h
      cases h
      unfold cp1252DecodeByte
      rw [if_neg h1, if_neg (by omega), if_pos h2.2]
    · rw [if_neg h2] at h
      cases hf : (List.range 32).find? (fun i => cp1252Hi (0x80 + i) == some c.toNat) with
      | none => rw [hf] at h; cases h
      | some i =>
        rw [hf] at h
        cases h
        have hp := List.find?_some hf
        have hi32 : i < 32 := List.mem_range.mp (List.mem_of_find?_eq_some hf)
        have heq : cp1252Hi (0x80 + i) = some c.toNat := by simpa using hp
        show cp1252DecodeByte (0x80 + i) = some c.toNat
        unfold cp1252DecodeByte
        rw [if_neg (by omega), if_pos (by omega)]
        exact heq

theorem cp1252_roundtrip :
    ∀ (cs : List Char) (B : Bytes), cs.mapM cp1252EncodeChar = some B →
      cp1252DecodeReplace B = cs
  | [], B, h => by
    cases h
    rfl
  | c :: cs, B, h => by
    rw [List.mapM_cons] at h
    cases hc : cp1252EncodeChar c with
    | none => rw [hc] at h; cases h
    | some b =>
      rw [hc] at h
      cases hcs : cs.mapM cp1252EncodeChar with
      | none => rw [hcs] at h; cases h
      | some bs =>
        rw [hcs] at h
        cases h
        rw [cp1252DecodeReplace, cp1252_byte_roundtrip c b hc]
        show Char.ofNat c.toNat :: cp1252DecodeReplace bs = c :: cs
        rw [Char.ofNat_toNat, cp1252_roundtrip cs bs hcs]

theorem utf8Aux_none_cons (b : Nat) (l : Bytes) :
    utf8Aux none (b :: l)
      = match utf8Step b with
        | (some ch, _) => ch :: utf8Aux none l
        | (none, p) => utf8Aux p l := rfl

theorem utf8Aux_some_cons (acc need lo hi b : Nat) (l : Bytes) :
    utf8Aux (some (acc, need, lo, hi)) (b :: l)
      = if lo ≤ b ∧ b < hi then
          if need = 1 then Char.ofNat (acc * 64 + (b - 0x80)) :: utf8Aux none l
          else utf8Aux (some (acc * 64 + (b - 0x80), need - 1, 0x80, 0xC0)) l
        else
          replChar ::
            (match utf8Step b with
             | (some ch, _) => ch :: utf8Aux none l
             | (none, p) => utf8Aux p l) := rfl

theorem utf8Step_1 (b : Nat) (h : b < 0x80) :
    utf8Step b = (some (Char.ofNat b), none) := by
  unfold utf8Step
  rw [if_pos h]

theorem utf8Step_2 (b : Nat) (h1 : 0xC2 ≤ b) (h2 : b < 0xE0) :
    utf8Step b = (none, some (b - 0xC0, 1, 0x80, 0xC0)) := by
  unfold utf8Step
  rw [if_neg (by omega), if_neg (by omega), if_pos h2]

theorem utf8Step_3 (b : Nat) (h1 : 0xE0 ≤ b) (h2 : b < 0xF0) :
    utf8Step b = (none, some (b - 0xE0, 2, if b == 0xE0 then 0xA0 else 0x80,
      if b == 0xED then 0xA0 else 0xC0)) := by
  unfold utf8Step
  rw [if_neg (by omega), if_neg (by omega), if_neg (by omega), if_pos h2]

theorem utf8Step_4 (b : Nat) (h1 : 0xF0 ≤ b) (h2 : b < 0xF5) :
    utf8Step b = (none, some (b - 0xF0, 3, if b == 0xF0 then 0x90 else 0x80,
      if b == 0xF4 then 0x90 else 0xC0)) := by
  unfold utf8Step
  rw [if_neg (by omega), if_neg (by omega), if_neg (by omega), if_neg (by omega), if_pos h2]

/-- Decoding an encoded scalar value prepended to any byte tail yields the
character followed by the decode of the tail. -/
theorem utf8Aux_encode (c : Char) (rest : Bytes) :
    utf8Aux none (utf8EncodeChar c.toNat ++ rest) = c :: utf8Aux none rest := by
  have hofn : Char.ofNat c.toNat = c := Char.ofNat_toNat c
  have hv : Nat.isValidChar c.toNat := c.valid
  have hup : c.toNat < 0x110000 := by
    rcases hv with h | ⟨_, h⟩ <;> omega
  have hsur : c.toNat < 0xD800 ∨ 0xDFFF < c.toNat := by
    rcases hv with h | ⟨h, _⟩
    · exact Or.inl h
    · exact Or.inr h
  by_cases hA : c.toNat < 0x80
  · rw [show utf8EncodeChar c.toNat = [c.toNat] by
      unfold utf8EncodeChar; rw [if_pos hA]]
    rw [show ([c.toNat] : Bytes) ++ rest = c.toNat :: rest from rfl]
    rw [utf8Aux_none_cons, utf8Step_1 _ hA, hofn]
  by_cases hB : c.toNat < 0x800
  · rw [show utf8EncodeChar c.toNat
        = [0xC0 + c.toNat / 64, 0x80 + c.toNat % 64] by
      unfold utf8EncodeChar; rw [if_neg (by omega), if_pos hB]]
    rw [show ([0xC0 + c.toNat / 64, 0x80 + c.toNat % 64] : Bytes) ++ rest
        = (0xC0 + c.toNat / 64) :: (0x80 + c.toNat % 64) :: rest from rfl]
    rw [utf8Aux_none_cons, utf8Step_2 _ (by omega) (by omega)]
    show utf8Aux (some (0xC0 + c.toNat / 64 - 0xC0, 1, 0x80, 0xC0))
      ((0x80 + c.toNat % 64) :: rest) = c :: utf8Aux none rest
    rw [utf8Aux_some_cons, if_pos (by omega), if_pos rfl]
    rw [show (0xC0 + c.toNat / 64 - 0xC0) * 64 + (0x80 + c.toNat % 64 - 0x80)
        = c.toNat by omega]
    rw [hofn]
  by_cases hC : c.toNat < 0x10000
  · rw [show utf8EncodeChar c.toNat
        = [0xE0 + c.toNat / 4096, 0x80 + c.toNat / 64 % 64, 0x80 + c.toNat % 64] by
      unfold utf8EncodeChar; rw [if_neg (by omega), if_neg (by omega), if_pos hC]]
    rw [show ([0xE0 + c.toNat / 4096, 0x80 + c.toNat / 64 % 64, 0x80 + c.toNat % 64] : Bytes)
        ++ rest
        = (0xE0 + c.toNat / 4096) :: (0x80 + c.toNat / 64 % 64)
          :: (0x80 + c.toNat % 64) :: rest from rfl]
    rw [utf8Aux_none_cons, utf8Step_3 _ (by omega) (by omega)]
    show utf8Aux (some (0xE0 + c.toNat / 4096 - 0xE0, 2,
        if (0xE0 + c.toNat / 4096) == 0xE0 then 0xA0 else 0x80,
        if (0xE0 + c.toNat / 4096) == 0xED then 0xA0 else 0xC0))
      ((0x80 + c.toNat / 64 % 64) :: (0x80 + c.toNat % 64) :: rest)
      = c :: utf8Aux none rest
    by_cases hE : c.toNat < 0x1000
    · rw [show (0xE0 + c.toNat / 4096) = 0xE0 by omega]
      rw [if_pos (by decide), if_neg (by decide)]
      rw [utf8Aux_some_cons, if_pos (by omega), if_neg (by omega)]
      rw [utf8Aux_some_cons, if_pos (by omega), if_pos rfl]
      rw [show ((0xE0 - 0xE0 : Nat) * 64 + (0x80 + c.toNat / 64 % 64 - 0x80)) * 64
          + (0x80 + c.toNat % 64 - 0x80) = c.toNat by omega]
      rw [hofn]
    by_cases hD : 0xD000 ≤ c.toNat ∧ c.toNat < 0xE000
    · have hlt : c.toNat < 0xD800 := by
        rcases hsur with h | h
        · exact h
        · omega
      rw [show (0xE0 + c.toNat / 4096) = 0xED by omega]
      rw [if_neg (by decide), if_pos (by decide)]
      rw [utf8Aux_some_cons, if_pos (by omega), if_neg (by omega)]
      rw [utf8Aux_some_cons, if_pos (by omega), if_pos rfl]
      rw [show ((0xED - 0xE0 : Nat) * 64 + (0x80 + c.toNat / 64 % 64 - 0x80)) * 64
          + (0x80 + c.toNat % 64 - 0x80) = c.toNat by omega]
      rw [hofn]
    · rw [if_neg (by simp; omega), if_neg (by simp; omega)]
      rw [utf8Aux_some_cons, if_pos (by omega), if_neg (by omega)]
      rw [utf8Aux_some_cons, if_pos (by omega), if_pos rfl]
      rw [show ((0xE0 + c.toNat / 4096 - 0xE0) * 64 + (0x80 + c.toNat / 64 % 64 - 0x80)) * 64
          + (0x80 + c.toNat % 64 - 0x80) = c.toNat by omega]
      rw [hofn]
  · rw [show utf8EncodeChar c.toNat
        = [0xF0 + c.toNat / 262144, 0x80 + c.toNat / 4096 % 64,
           0x80 + c.toNat / 64 % 64, 0x80 + c.toNat % 64] by
      unfold utf8EncodeChar; rw [if_neg (by omega), if_neg (by omega), if_neg (by omega)]]
    rw [show ([0xF0 + c.toNat / 262144, 0x80 + c.toNat / 4096 % 64,
           0x80 + c.toNat / 64 % 64, 0x80 + c.toNat % 64] : Bytes) ++ rest
        = (0xF0 + c.toNat / 262144) :: (0x80 + c.toNat / 4096 % 64)
          :: (0x80 + c.toNat / 64 % 64) :: (0x80 + c.toNat % 64) :: rest from rfl]
    rw [utf8Aux_none_cons, utf8Step_4 _ (by omega) (by omega)]
    show utf8Aux (some (0xF0 + c.toNat / 262144 - 0xF0, 3,
        if (0xF0 + c.toNat / 262144) == 0xF0 then 0x90 else 0x80,
        if (0xF0 + c.toNat / 262144) == 0xF4 then 0x90 else 0xC0))
      ((0x80 + c.toNat / 4096 % 64) :: (0x80 + c.toNat / 64 % 64)
        :: (0x80 + c.toNat % 64) :: rest)
      = c :: utf8Aux none rest
    by_cases hF0 : c.toNat < 0x40000
    · rw [show (0xF0 + c.toNat / 262144) = 0xF0 by omega]
      rw [if_pos (by decide), if_neg (by decide)]
      rw [utf8Aux_some_cons, if_pos (by omega), if_neg (by omega)]
      rw [utf8Aux_some_cons, if_pos (by omega), if_neg (by omega)]
      rw [utf8Aux_some_cons, if_pos (by omega), if_pos rfl]
      rw [show (((0xF0 - 0xF0 : Nat) * 64 + (0x80 + c.toNat / 4096 % 64 - 0x80)) * 64
          + (0x80 + c.toNat / 64 % 64 - 0x80)) * 64 + (0x80 + c.toNat % 64 - 0x80)
          = c.toNat by omega]
      rw [hofn]
    by_cases hF4 : 0x100000 ≤ c.toNat
    · rw [show (0xF0 + c.toNat / 262144) = 0xF4 by omega]
      rw [if_neg (by decide), if_pos (by decide)]
      rw [utf8Aux_some_cons, if_pos (by omega), if_neg (by omega)]
      rw [utf8Aux_some_cons, if_pos (by omega), if_neg (by omega)]
      rw [utf8Aux_some_cons, if_pos (by omega), if_pos rfl]
      rw [show (((0xF4 - 0xF0 : Nat) * 64 + (0x80 + c.toNat / 4096 % 64 - 0x80)) * 64
          + (0x80 + c.toNat / 64 % 64 - 0x80)) * 64 + (0x80 + c.toNat % 64 - 0x80)
          = c.toNat by omega]
      rw [hofn]
    · rw [if_neg (by simp; omega), if_neg (by simp; omega)]
      rw [utf8Aux_some_cons, if_pos (by omega), if_neg (by omega)]
      rw [utf8Aux_some_cons, if_pos (by omega), if_neg (by omega)]
      rw [utf8Aux_some_cons, if_pos (by omega), if_pos rfl]
      rw [show (((0xF0 + c.toNat / 262144 - 0xF0) * 64
          + (0x80 + c.toNat / 4096 % 64 - 0x80)) * 64
          + (0x80 + c.toNat / 64 % 64 - 0x80)) * 64 + (0x80 + c.toNat % 64 - 0x80)
          = c.toNat by omega]
      rw [hofn]

theorem utf8_roundtrip :
    ∀ cs : List Char,
      utf8Aux none (cs.flatMap (fun c => utf8EncodeChar c.toNat)) = cs
  | [] => rfl
  | c :: cs => by
    rw [List.flatMap_cons, utf8Aux_encode c _, utf8_roundtrip cs]

theorem fresh_text_override (hdrs : Headers) (B : Bytes) (E c : String) (hne : E ≠ "")
    (hcs : http_content_type_encoding ("charset=" ++ E) = some c) :
    (freshEnc hdrs B (some E)).text.1 = to_unicode c B := by
  have htr : pyTruthyStr (some E) = true := by simp [pyTruthyStr, hne]
  simp [EncState.text, EncState.encoding, EncState.declared_encoding, freshEnc, htr, hne,
    html_to_unicode, hcs]

/-- C5: with an override encoding `E`, the `encoding` accessor returns the
string `E` exactly as supplied (not canonicalized), `text` decodes the
byte body under `E`'s codec, and encoding a text under `E` and wrapping the
bytes as the body round-trips to the original text. -/
theorem C5_override_exact_roundtrip (url : String) (st : Int) (hdrs : Headers)
    (fl : List String) (E c : String) (hres : resolve_encoding E = some c)
    (htok : E.data.all isTokChar = true) (hne : E ≠ "") :
    (∀ B : Bytes,
      (TextResponse.encoding (TextResponse.constructOk url st hdrs (.bytes B) fl (some E))).1
        = E)
  ∧ (∀ B : Bytes,
      (TextResponse.text (TextResponse.constructOk url st hdrs (.bytes B) fl (some E))).1
        = to_unicode c B)
  ∧ (∀ (T : String) (B : Bytes), pyEncode E T = some B →
      (TextResponse.text (TextResponse.constructOk url st hdrs (.bytes B) fl (some E))).1
        = T) := by
  have hcs : http_content_type_encoding ("charset=" ++ E) = some c := by
    unfold http_content_type_encoding
    rw [show ("charset=" ++ E).toList = ("charset=" ++ E).data from rfl]
    rw [scanCharset_charset_append E htok]
    exact hres
  have htext : ∀ B : Bytes,
      (TextResponse.text (TextResponse.constructOk url st hdrs (.bytes B) fl (some E))).1
        = to_unicode c B := by
    intro B
    rw [constructOk_text_val]
    exact fresh_text_override hdrs B E c hne hcs
  refine ⟨?_, htext, ?_⟩
  · intro B
    rw [constructOk_encoding_val]
    exact fresh_enc_override hdrs B E hne
  · intro T B hpe
    rw [htext B]
    unfold pyEncode at hpe
    rw [hres] at hpe
    split at hpe
    · rename_i heq
      cases heq
      cases hT : T.data.mapM asciiEncodeChar with
      | none => rw [hT] at hpe; cases hpe
      | some bs =>
        rw [hT] at hpe
        cases hpe
        rw [show to_unicode "ascii" B = String.mk (asciiDecodeReplace B) from rfl]
        rw [ascii_roundtrip T.data B hT]
    · rename_i heq
      cases heq
      cases hpe
      rw [show to_unicode "utf-8" (T.data.flatMap (fun ch => utf8EncodeChar ch.toNat))
          = String.mk (utf8Aux none (T.data.flatMap (fun ch => utf8EncodeChar ch.toNat)))
          from rfl]
      rw [utf8_roundtrip T.data]
    · rename_i heq
      cases heq
      cases hT : T.data.mapM cp1252EncodeChar with
      | none => rw [hT] at hpe; cases hpe
      | some bs =>
        rw [hT] at hpe
        cases hpe
        rw [show to_unicode "cp1252" B = String.mk (cp1252DecodeReplace B) from rfl]
        rw [cp1252_roundtrip T.data B hT]
    · cases hpe

/-- C5 witness: override `"UTF-8"` is returned exactly (not as its
canonical form `"utf-8"`), and a text encoded under it round-trips. -/
theorem C5_override_exact_roundtrip_witness :
    (TextResponse.encoding (TextResponse.constructOk "http://example.com/" 200 ⟨[]⟩
        (.bytes [104, 0xC3, 0xA9]) [] (some "UTF-8"))).1 = "UTF-8"
  ∧ (TextResponse.text (TextResponse.constructOk "http://example.com/" 200 ⟨[]⟩
        (.bytes [104, 0xC3, 0xA9]) [] (some "UTF-8"))).1 = "hé" := by
  have h := C5_override_exact_roundtrip "http://example.com/" 200 ⟨[]⟩ [] "UTF-8" "utf-8"
    (by decide) (by decide) (by decide)
  exact ⟨h.1 [104, 0xC3, 0xA9], h.2.2 "hé" [104, 0xC3, 0xA9] (by decide)⟩

end Rexpath
